import Mathlib

/-!
Shallow embedding of the repository `daily-news-analysis`
(`src/sokin_news_analyzer.py` and `src/hello_world_teams.py`).

The persisted seen-set is the JSON document written by
`save_processed_article`:

    json.dump({'processed_hashes': list(processed),
               'last_updated': datetime.now().isoformat()}, f, indent=2)

We model the file text exactly, at the character level, for the document
shape the program itself writes.  `parseStateChars` models
`json.load` followed by `data.get('processed_hashes', [])` on documents of
that shape; any other content models a `json.JSONDecodeError` (the
`except` path of `load_processed_articles`).  The theorems that rely on
the serialization restrict the stored strings to characters that Python's
`json.dump` writes verbatim (no `"`, no backslash, printable ASCII), which
holds in particular for the MD5 hex digests the program stores.
-/

/-- Characters of the fixed header `{\n  "processed_hashes": ` that
`json.dump(..., indent=2)` emits before the hash list. -/
def headerChars : List Char :=
  '\x7b' :: '\n' :: ' ' :: ' ' :: '"' :: "processed_hashes".data ++ ['"', ':', ' ']

/-- Characters `,\n  "last_updated": "` emitted between the hash list and the
timestamp value. -/
def midChars : List Char :=
  ',' :: '\n' :: ' ' :: ' ' :: '"' :: "last_updated".data ++ ['"', ':', ' ', '"']

/-- Closing characters `"\n}` after the timestamp value. -/
def endChars : List Char := ['"', '\n', '\x7d']

/-- Four-space indent plus opening quote before each list item
(`json.dump` with `indent=2` indents list items of a value at depth one by
four spaces). -/
def itemOpenChars : List Char := [' ', ' ', ' ', ' ', '"']

/-- Rendering of a nonempty hash list body: items separated by `,\n`,
closed by `\n  ]`. -/
def renderItemsAux : String → List String → List Char
  | h, [] => itemOpenChars ++ h.data ++ '"' :: '\n' :: ' ' :: ' ' :: [']']
  | h, h2 :: t => itemOpenChars ++ h.data ++ '"' :: ',' :: '\n' :: renderItemsAux h2 t

/-- Rendering of the JSON list of hashes (`[]` when empty, multi-line
otherwise, as `json.dump(..., indent=2)` prints it). -/
def renderHashes : List String → List Char
  | [] => ['[', ']']
  | h :: t => '[' :: '\n' :: renderItemsAux h t

/-- Characters of the full persisted document. -/
def dumpChars (hashes : List String) (ts : String) : List Char :=
  headerChars ++ renderHashes hashes ++ midChars ++ ts.data ++ endChars

/-- The exact text `json.dump({'processed_hashes': hashes,
'last_updated': ts}, f, indent=2)` writes, for verbatim-serializable
strings. -/
def dumpState (hashes : List String) (ts : String) : String :=
  String.mk (dumpChars hashes ts)

/-- Consume an expected leading run of characters; `none` when the input
does not start with it (models a JSON parse error). -/
def dropLeading : List Char → List Char → Option (List Char)
  | [], s => some s
  | _ :: _, [] => none
  | c :: p, d :: s => if c = d then dropLeading p s else none

/-- Read characters up to the next `"` (the closing quote of a JSON string
written verbatim); `none` when no quote follows (truncated document). -/
def readQuoted : List Char → Option (List Char × List Char)
  | [] => none
  | c :: r =>
    if c = '"' then some ([], r)
    else
      match readQuoted r with
      | none => none
      | some (a, b) => some (c :: a, b)

/-- Parse the items of a nonempty rendered hash list.  The fuel argument
bounds the recursion; callers pass at least the input length. -/
def parseItems : Nat → List Char → Option (List String × List Char)
  | 0, _ => none
  | fuel + 1, s =>
    match dropLeading itemOpenChars s with
    | none => none
    | some s1 =>
      match readQuoted s1 with
      | none => none
      | some (h, s2) =>
        match s2 with
        | ',' :: '\n' :: s3 =>
          match parseItems fuel s3 with
          | none => none
          | some (l, r) => some (String.mk h :: l, r)
        | '\n' :: ' ' :: ' ' :: ']' :: s3 => some ([String.mk h], s3)
        | _ => none

/-- Parse the JSON list of hashes. -/
def parseHashes : List Char → Option (List String × List Char)
  | '[' :: ']' :: r => some ([], r)
  | '[' :: '\n' :: r => parseItems (r.length + 1) r
  | _ => none

/-- Parse a complete persisted document; `none` models `json.load` raising
(or the document not having the shape the program writes). -/
def parseStateChars (s : List Char) : Option (List String × String) :=
  match dropLeading headerChars s with
  | none => none
  | some s1 =>
    match parseHashes s1 with
    | none => none
    | some (hs, s2) =>
      match dropLeading midChars s2 with
      | none => none
      | some s3 =>
        match readQuoted s3 with
        | none => none
        | some (ts, s4) =>
          match s4 with
          | ['\n', '\x7d'] => some (hs, String.mk ts)
          | _ => none

/-- String-level wrapper of `parseStateChars`. -/
def parseState (s : String) : Option (List String × String) :=
  parseStateChars s.data

/-- Model of a Python `set` of strings as a duplicate-free list: the
membership test is `∈`, and `setInsert` models `set.add`. -/
def setInsert (h : String) (l : List String) : List String :=
  if h ∈ l then l else h :: l

/-- Model of `get_processed_articles_fallback`.  The Python body is
`return set() if not hasattr(self, '_daily_run_marker') else
set(['daily_run_completed'])`; the attribute `_daily_run_marker` is never
assigned anywhere in the program, so the call sites always take the
`set()` branch (we pass `false`). -/
def get_processed_articles_fallback (daily_run_marker : Bool) : List String :=
  if daily_run_marker then ["daily_run_completed"] else []

/-- Model of `load_processed_articles`.  `none` models a missing state
file (`os.path.exists` false, returns `set()`); a present file whose
content does not parse models the `except` path, which returns
`get_processed_articles_fallback()`.  `set(data.get('processed_hashes', []))`
is modelled by `List.dedup`.  The Lean function is total on every storage
state, mirroring the `try/except` that keeps the Python function from
raising to its caller. -/
def load_processed_articles (file : Option String) : List String :=
  match file with
  | none => []
  | some c =>
    match parseState c with
    | some (hs, _) => hs.dedup
    | none => get_processed_articles_fallback false

/-- Model of `save_processed_article`: re-load the persisted set, add the
hash, and write the serialized document back.  The Python write is
`open(self.processed_articles_file, 'w')` followed by `json.dump` — the
file is replaced by the new serialization (the enumeration order of
`list(processed)` is arbitrary in Python; the list model fixes one order,
and the theorems about membership never depend on it). -/
def save_processed_article (file : Option String) (ts h : String) : Option String :=
  some (dumpState (setInsert h (load_processed_articles file)) ts)

/-- Model of `save_processed_article` whose write fails after `k`
characters: `open(..., 'w')` truncates the file on open, and the
interrupted `json.dump` leaves only the first `k` characters of the new
serialization.  There is no temporary file and no rename in the code, so
the prior content is already gone when the write starts. -/
def save_processed_article_interrupted (file : Option String) (ts h : String)
    (k : Nat) : Option String :=
  some (String.mk ((dumpChars (setInsert h (load_processed_articles file)) ts).take k))

/-- The string contains no double-quote character. -/
def noQuote (s : String) : Prop := '"' ∉ s.data

instance (s : String) : Decidable (noQuote s) :=
  inferInstanceAs (Decidable ('"' ∉ s.data))

/-- Characters Python's `json.dump` (default `ensure_ascii=True`) writes
verbatim inside a string literal: printable ASCII other than the quote and
the backslash. -/
def verbatimChar (c : Char) : Prop :=
  c ≠ '"' ∧ c ≠ '\\' ∧ 0x20 ≤ c.toNat ∧ c.toNat ≤ 0x7e

instance (c : Char) : Decidable (verbatimChar c) :=
  inferInstanceAs (Decidable (c ≠ '"' ∧ c ≠ '\\' ∧ 0x20 ≤ c.toNat ∧ c.toNat ≤ 0x7e))

/-- Strings that `json.dump` serializes verbatim (in particular every MD5
hex digest). -/
def verbatimStr (s : String) : Prop := ∀ c ∈ s.data, verbatimChar c

instance (s : String) : Decidable (verbatimStr s) :=
  inferInstanceAs (Decidable (∀ c ∈ s.data, verbatimChar c))

theorem verbatimStr.toNoQuote {s : String} (h : verbatimStr s) : noQuote s := by
  intro hm
  exact ((h _ hm).1 rfl).elim

theorem stringMk_data (s : String) : String.mk s.data = s := rfl

theorem dropLeading_append (p s : List Char) : dropLeading p (p ++ s) = some s := by
  induction p with
  | nil => rfl
  | cons c p ih => simp [dropLeading, ih]

theorem readQuoted_append (h r : List Char) (hq : '"' ∉ h) :
    readQuoted (h ++ '"' :: r) = some (h, r) := by
  induction h with
  | nil => simp [readQuoted]
  | cons c t ih =>
    have hc : ¬ (c = '"') := fun e => hq (by simp [e])
    have ht : '"' ∉ t := fun m => hq (List.mem_cons_of_mem _ m)
    simp [readQuoted, hc, ih ht]

theorem renderItemsAux_length (h : String) (t : List String) :
    t.length + 1 ≤ (renderItemsAux h t).length := by
  induction t generalizing h with
  | nil => simp [renderItemsAux, itemOpenChars]
  | cons h2 t ih =>
    have := ih h2
    simp only [renderItemsAux, List.length_append, List.length_cons]
    omega

theorem parseItems_render (t : List String) :
    ∀ (h : String) (fuel : Nat) (rest : List Char),
      t.length + 1 ≤ fuel → noQuote h → (∀ x ∈ t, noQuote x) →
      parseItems fuel (renderItemsAux h t ++ rest) = some (h :: t, rest) := by
  induction t with
  | nil =>
    intro h fuel rest hfuel hq _
    match fuel, hfuel with
    | fuel + 1, _ =>
      show parseItems (fuel + 1)
        ((itemOpenChars ++ h.data ++ '"' :: '\n' :: ' ' :: ' ' :: [']']) ++ rest) = _
      have : (itemOpenChars ++ h.data ++ '"' :: '\n' :: ' ' :: ' ' :: [']']) ++ rest
          = itemOpenChars ++ (h.data ++ '"' :: '\n' :: ' ' :: ' ' :: ']' :: rest) := by
        simp
      rw [this]
      simp [parseItems, dropLeading_append, readQuoted_append _ _ hq, stringMk_data]
  | cons h2 t ih =>
    intro h fuel rest hfuel hq hall
    match fuel, hfuel with
    | fuel + 1, hfuel =>
      show parseItems (fuel + 1)
        ((itemOpenChars ++ h.data ++ '"' :: ',' :: '\n' :: renderItemsAux h2 t) ++ rest) = _
      have : (itemOpenChars ++ h.data ++ '"' :: ',' :: '\n' :: renderItemsAux h2 t) ++ rest
          = itemOpenChars ++ (h.data ++ '"' :: ',' :: '\n' :: (renderItemsAux h2 t ++ rest)) := by
        simp
      rw [this]
      have hfuel' : t.length + 1 ≤ fuel := by
        simp only [List.length_cons] at hfuel; omega
      have hq2 : noQuote h2 := hall h2 (by simp)
      have hall' : ∀ x ∈ t, noQuote x := fun x hx => hall x (by simp [hx])
      simp [parseItems, dropLeading_append, readQuoted_append _ _ hq,
        ih h2 fuel rest hfuel' hq2 hall', stringMk_data]

theorem parseHashes_render (hs : List String) (rest : List Char)
    (hq : ∀ x ∈ hs, noQuote x) :
    parseHashes (renderHashes hs ++ rest) = some (hs, rest) := by
  cases hs with
  | nil => rfl
  | cons h t =>
    show parseHashes ('[' :: '\n' :: (renderItemsAux h t ++ rest)) = _
    have hfuel : t.length + 1 ≤ (renderItemsAux h t ++ rest).length + 1 := by
      have := renderItemsAux_length h t
      simp only [List.length_append]
      omega
    have e : parseHashes ('[' :: '\n' :: (renderItemsAux h t ++ rest))
        = parseItems ((renderItemsAux h t ++ rest).length + 1)
            (renderItemsAux h t ++ rest) := by
      simp [parseHashes]
    rw [e]
    exact parseItems_render t h _ rest hfuel (hq h (by simp))
      (fun x hx => hq x (by simp [hx]))

theorem parseState_dump (hashes : List String) (ts : String)
    (hq : ∀ x ∈ hashes, noQuote x) (ht : noQuote ts) :
    parseState (dumpState hashes ts) = some (hashes, ts) := by
  have e : dumpChars hashes ts
      = headerChars ++ (renderHashes hashes
          ++ (midChars ++ (ts.data ++ '"' :: ['\n', '\x7d']))) := by
    simp [dumpChars, endChars]
  show parseStateChars (dumpChars hashes ts) = _
  rw [e]
  simp only [parseStateChars, dropLeading_append, parseHashes_render hashes _ hq,
    readQuoted_append _ _ ht, stringMk_data]

theorem readQuoted_noQuote {s a b : List Char} (h : readQuoted s = some (a, b)) :
    '"' ∉ a := by
  induction s generalizing a b with
  | nil => simp [readQuoted] at h
  | cons c r ih =>
    by_cases hc : c = '"'
    · subst hc
      rw [readQuoted, if_pos rfl] at h
      simp only [Option.some.injEq, Prod.mk.injEq] at h
      rw [← h.1]
      simp
    · rw [readQuoted, if_neg hc] at h
      cases hr : readQuoted r with
      | none => rw [hr] at h; simp at h
      | some p =>
        rw [hr] at h
        cases p with
        | mk a2 b2 =>
          simp only [Option.some.injEq, Prod.mk.injEq] at h
          rw [← h.1]
          intro hm
          rcases List.mem_cons.mp hm with he | hm2
          · exact hc he.symm
          · exact ih hr hm2

theorem parseItems_noQuote (fuel : Nat) :
    ∀ {s : List Char} {l : List String} {r : List Char},
      parseItems fuel s = some (l, r) → ∀ x ∈ l, noQuote x := by
  induction fuel with
  | zero => intro s l r h; simp [parseItems] at h
  | succ fuel ih =>
    intro s l r h
    rw [parseItems] at h
    split at h
    · simp at h
    · split at h
      · simp at h
      · next s1 h2 s2 heq2 =>
        split at h
        · split at h
          · simp at h
          · next l2 r2 heq3 =>
            simp only [Option.some.injEq, Prod.mk.injEq] at h
            rw [← h.1]
            intro x hx
            rcases List.mem_cons.mp hx with he | hm
            · rw [he]
              exact readQuoted_noQuote heq2
            · exact ih heq3 x hm
        · simp only [Option.some.injEq, Prod.mk.injEq] at h
          rw [← h.1]
          intro x hx
          rcases List.mem_cons.mp hx with he | hm
          · rw [he]
            exact readQuoted_noQuote heq2
          · simp at hm
        · simp at h

theorem parseHashes_noQuote {s : List Char} {l : List String} {r : List Char}
    (h : parseHashes s = some (l, r)) : ∀ x ∈ l, noQuote x := by
  unfold parseHashes at h
  split at h
  · simp only [Option.some.injEq, Prod.mk.injEq] at h
    rw [← h.1]
    intro x hx
    simp at hx
  · exact parseItems_noQuote _ h
  · simp at h

theorem parseState_noQuote {c : String} {l : List String} {ts : String}
    (h : parseState c = some (l, ts)) : ∀ x ∈ l, noQuote x := by
  unfold parseState parseStateChars at h
  split at h
  · simp at h
  · split at h
    · simp at h
    · next s1 hs s2 heq2 =>
      split at h
      · simp at h
      · split at h
        · simp at h
        · split at h
          · simp only [Option.some.injEq, Prod.mk.injEq] at h
            rw [← h.1]
            exact parseHashes_noQuote heq2
          · simp at h

theorem load_some (c : String) :
    load_processed_articles (some c)
      = match parseState c with
        | some (hs, _) => hs.dedup
        | none => get_processed_articles_fallback false := rfl

theorem load_noQuote (file : Option String) :
    ∀ x ∈ load_processed_articles file, noQuote x := by
  cases file with
  | none => intro x hx; simp [load_processed_articles] at hx
  | some c =>
    intro x hx
    cases hp : parseState c with
    | none =>
      have e : load_processed_articles (some c) = get_processed_articles_fallback false := by
        rw [load_some c, hp]
      rw [e] at hx
      simp [get_processed_articles_fallback] at hx
    | some p =>
      obtain ⟨hs, ts2⟩ := p
      have e : load_processed_articles (some c) = hs.dedup := by
        rw [load_some c, hp]
      rw [e] at hx
      exact parseState_noQuote hp x (List.mem_dedup.mp hx)

theorem mem_setInsert {x h : String} {l : List String} :
    x ∈ setInsert h l ↔ x = h ∨ x ∈ l := by
  unfold setInsert
  split
  · next hmem =>
    constructor
    · exact Or.inr
    · rintro (rfl | hx)
      · exact hmem
      · exact hx
  · simp [List.mem_cons]

theorem load_save (file : Option String) (ts h : String)
    (ht : noQuote ts) (hh : noQuote h) :
    ∀ x, x ∈ load_processed_articles (save_processed_article file ts h) ↔
      x = h ∨ x ∈ load_processed_articles file := by
  intro x
  have hq : ∀ y ∈ setInsert h (load_processed_articles file), noQuote y := by
    intro y hy
    rcases mem_setInsert.mp hy with e | m
    · exact e ▸ hh
    · exact load_noQuote file y m
  have hd := parseState_dump _ ts hq ht
  show x ∈ load_processed_articles (some (dumpState (setInsert h (load_processed_articles file)) ts)) ↔ _
  rw [load_some, hd]
  show x ∈ (setInsert h (load_processed_articles file)).dedup ↔ _
  rw [List.mem_dedup]
  exact mem_setInsert

/-!
Scheduler, fingerprinting and the ingestion pipeline
(`should_check_source_today`, `create_article_hash`,
`is_payments_related`, `scrape_articles_from_source`).
-/

/-- A source entry of `self.target_sources`: `{'url': ..., 'frequency': ...}`. -/
structure SourceConfig where
  url : String
  frequency : String
deriving DecidableEq

/-- Model of `should_check_source_today`.  `weekday` injects
`datetime.now().weekday()` (0 = Monday).  The source name is accepted and
ignored, as in the Python signature. -/
def should_check_source_today (source_name : String) (source_config : SourceConfig)
    (weekday : Nat) : Bool :=
  if source_config.frequency = "daily" then true
  else if source_config.frequency = "weekly" then weekday == 0
  else true

/-- The encoded natural key `f"{title}|{url}"` that `create_article_hash`
feeds to `hashlib.md5`. -/
def articleKey (title url : String) : String :=
  title ++ "|" ++ url

/-- Model of `create_article_hash`.  `hashlib.md5(...).hexdigest()` is an
external primitive; it enters the model as the function parameter `md5`,
and every theorem uses only that it is a deterministic function of the
encoded key. -/
def create_article_hash (md5 : String → String) (title url : String) : String :=
  md5 (articleKey title url)

/-- Does the pattern occur as a contiguous run inside the text?  Models the
Python `needle in haystack` substring test. -/
def leadMatch : List Char → List Char → Bool
  | [], _ => true
  | _ :: _, [] => false
  | c :: p, d :: s => c == d && leadMatch p s

/-- Substring occurrence on character lists. -/
def occursIn (needle : List Char) : List Char → Bool
  | [] => needle.isEmpty
  | c :: t => leadMatch needle (c :: t) || occursIn needle t

/-- `needle in hay` for strings. -/
def strContains (hay needle : String) : Bool :=
  occursIn needle.data hay.data

/-- Python `str.startswith(p)`. -/
def strStarts (s p : String) : Bool :=
  leadMatch p.data s.data

/-- Python `str.lower()` on one character (ASCII range; every character
the program's keyword test compares is ASCII). -/
def lowerChar (c : Char) : Char :=
  if 'A' ≤ c ∧ c ≤ 'Z' then Char.ofNat (c.toNat + 32) else c

/-- Python `str.lower()`. -/
def strLower (s : String) : String :=
  String.mk (s.data.map lowerChar)

/-- The keyword vocabulary of `is_payments_related`. -/
def payments_keywords : List String :=
  ["payment", "fintech", "financial", "banking", "currency", "cross-border",
   "transaction", "money", "digital wallet", "cryptocurrency", "blockchain",
   "remittance", "foreign exchange", "forex", "settlement", "clearing",
   "card", "visa", "mastercard", "paypal", "stripe", "regulation", "compliance"]

/-- Model of `is_payments_related`: any keyword occurs in the lowercased
text. -/
def is_payments_related (text : String) : Bool :=
  payments_keywords.any (fun k => strContains (strLower text) k)

/-- A candidate link as extracted from the source page: `link.get('href')`
(empty string models a missing attribute) and `link.get_text(strip=True)`. -/
structure Link where
  href : String
  text : String
deriving DecidableEq

/-- The article record built by `scrape_articles_from_source`. -/
structure NewsArticle where
  title : String
  url : String
  content : String
  source : String
  published_date : String
  hash_id : String
deriving DecidableEq

/-- Python `source_url.rstrip('/')`. -/
def rstripSlash (s : String) : String :=
  String.mk ((s.data.reverse.dropWhile (fun c => c == '/')).reverse)

/-- The URL patterns that mark a candidate as pagination or another
non-article page. -/
def skip_patterns : List String :=
  ["page=", "category=", "tag=", "author=", "#comment"]

/-- Relative-to-absolute URL normalization of the processing loop:
`if href.startswith('/'): href = source_url.rstrip('/') + href`
`elif not href.startswith('http'): continue` (the `continue` is `none`). -/
def normalizeHref (source_url href : String) : Option String :=
  if strStarts href "/" then some (rstripSlash source_url ++ href)
  else if strStarts href "http" then some href
  else none

/-- One iteration of the link-processing loop of
`scrape_articles_from_source` (its `try` body): the checks are performed
in source order — href/title presence and length, relative-URL
normalization, the non-article URL patterns, the duplicate check against
the persisted seen-set, content retrieval
(`scrape_article_content_with_retry`, injected as the deterministic oracle
`contentOf`, empty string modelling retrieval failure), and the topical
filter.  Returns `some` article exactly when the candidate survives every
check; `none` models `continue`.  The seen-set is `load_processed_articles`
of the state file, which no code writes during the scraping phase, so it
is constant across iterations and passed as `seen`. -/
def processLink (md5 : String → String) (contentOf : String → String)
    (source_name source_url date : String) (seen : List String)
    (lk : Link) : Option NewsArticle :=
  if lk.href = "" ∨ lk.text = "" ∨ lk.text.length < 10 then none
  else
    match normalizeHref source_url lk.href with
    | none => none
    | some href2 =>
      if skip_patterns.any (fun p => strContains href2 p) then none
      else if create_article_hash md5 lk.text href2 ∈ seen then none
      else if contentOf href2 = "" then none
      else if ¬ is_payments_related (lk.text ++ " " ++ contentOf href2) then none
      else some { title := lk.text, url := href2, content := contentOf href2,
                  source := source_name, published_date := date,
                  hash_id := create_article_hash md5 lk.text href2 }

/-- The processing loop of `scrape_articles_from_source` over the
extracted candidate links, with the running `processed_count` and the
`if processed_count >= max_articles: break` at the top of each
iteration. -/
def scrapeLoop (md5 : String → String) (contentOf : String → String)
    (source_name source_url date : String) (seen : List String)
    (max_articles : Nat) : List Link → Nat → List NewsArticle
  | [], _ => []
  | lk :: rest, count =>
    if max_articles ≤ count then []
    else
      match processLink md5 contentOf source_name source_url date seen lk with
      | some a => a :: scrapeLoop md5 contentOf source_name source_url date seen
          max_articles rest (count + 1)
      | none => scrapeLoop md5 contentOf source_name source_url date seen
          max_articles rest count

/-- Model of `scrape_articles_from_source`.  The retrieval of the source
page and the selector-based extraction of candidate links (steps before
the processing loop) are external collaborators; the extracted
`article_links` enter as `links`.  `max_articles` defaults to 3 as in the
Python signature. -/
def scrape_articles_from_source (md5 : String → String) (contentOf : String → String)
    (source_name source_url date : String) (links : List Link) (seen : List String)
    (max_articles : Nat := 3) : List NewsArticle :=
  scrapeLoop md5 contentOf source_name source_url date seen max_articles links 0

/-- The model of the analysis loop of `run_daily_analysis` (lines
901-911): for each scraped article, call the AI enrichment
(`analyze_article_with_ai`, injected as the oracle `enrich`; `none`
models a failed call or unparseable response, which the Python catches
and turns into `None`); exactly when it returns an analysis, append it
and call `save_processed_article(article.hash_id)`.  The state file is
threaded through; `ts` stands for the `datetime.now().isoformat()`
timestamps (which never affect the stored hashes). -/
def analysis_phase {α : Type} (enrich : NewsArticle → Option α) (ts : String) :
    List NewsArticle → Option String → Option String × List α
  | [], file => (file, [])
  | a :: rest, file =>
    match enrich a with
    | some an =>
      ((analysis_phase enrich ts rest (save_processed_article file ts a.hash_id)).1,
        an :: (analysis_phase enrich ts rest (save_processed_article file ts a.hash_id)).2)
    | none => analysis_phase enrich ts rest file

/-- Characterization of the capped processing loop: it returns the
prefix of length `max_articles - count` of the valid candidates in
extraction order. -/
theorem scrapeLoop_eq_take (md5 contentOf : String → String)
    (sn su d : String) (seen : List String) (max_articles : Nat) :
    ∀ (links : List Link) (count : Nat),
      scrapeLoop md5 contentOf sn su d seen max_articles links count
        = (links.filterMap (processLink md5 contentOf sn su d seen)).take
            (max_articles - count) := by
  intro links
  induction links with
  | nil => intro count; simp [scrapeLoop]
  | cons lk rest ih =>
    intro count
    rw [scrapeLoop]
    by_cases hc : max_articles ≤ count
    · rw [if_pos hc]
      have h0 : max_articles - count = 0 := by omega
      simp [h0]
    · rw [if_neg hc]
      cases hp : processLink md5 contentOf sn su d seen lk with
      | some a =>
        rw [ih (count + 1)]
        rw [List.filterMap_cons, hp]
        have hs : max_articles - count = (max_articles - (count + 1)) + 1 := by omega
        rw [hs, List.take_succ_cons]
      | none =>
        rw [ih count]
        rw [List.filterMap_cons, hp]

/-- C4: `should_check_source_today` returns true for every `daily` source
on every weekday; for a `weekly` source it returns true exactly when the
weekday is Monday (index 0); any other frequency value is fail-open
(true). -/
theorem scheduler_frequency_behavior (source_name : String)
    (source_config : SourceConfig) (weekday : Nat) :
    (source_config.frequency = "daily" →
      should_check_source_today source_name source_config weekday = true) ∧
    (source_config.frequency = "weekly" →
      (should_check_source_today source_name source_config weekday = true ↔
        weekday = 0)) ∧
    (source_config.frequency ≠ "daily" → source_config.frequency ≠ "weekly" →
      should_check_source_today source_name source_config weekday = true) := by
  refine ⟨?_, ?_, ?_⟩
  · intro h
    simp [should_check_source_today, h]
  · intro h
    rw [should_check_source_today, h]
    rw [if_neg (by decide : ¬ ("weekly" = "daily")), if_pos rfl]
    exact beq_iff_eq
  · intro h1 h2
    rw [should_check_source_today, if_neg h1, if_neg h2]

/-- Witness for C4 on the catalog's concrete sources: a daily source on a
Thursday, a weekly source on Monday and on a Friday, and an undeclared
frequency value. -/
theorem scheduler_frequency_behavior_witness :
    should_check_source_today "PYMNTS" ⟨"https://www.pymnts.com/", "daily"⟩ 3 = true ∧
    should_check_source_today "Fintech Brain Food"
      ⟨"https://www.fintechbrainfood.com/", "weekly"⟩ 0 = true ∧
    should_check_source_today "Fintech Brain Food"
      ⟨"https://www.fintechbrainfood.com/", "weekly"⟩ 4 = false ∧
    should_check_source_today "Custom" ⟨"https://example.com/", "monthly"⟩ 2 = true := by
  refine ⟨?_, ?_, ?_, ?_⟩
  · exact (scheduler_frequency_behavior "PYMNTS" _ 3).1 rfl
  · exact ((scheduler_frequency_behavior "Fintech Brain Food" _ 0).2.1 rfl).mpr rfl
  · have h := (scheduler_frequency_behavior "Fintech Brain Food"
      ⟨"https://www.fintechbrainfood.com/", "weekly"⟩ 4).2.1 rfl
    exact Bool.eq_false_iff.mpr (fun ht => (by decide : (4 : Nat) ≠ 0) (h.mp ht))
  · exact (scheduler_frequency_behavior "Custom" _ 2).2.2 (by decide) (by decide)

/-- C10: the natural-key encoding `title + "|" + url` is not injective —
a pipe inside the title shifts the field boundary, so the distinct keys
("a|b", "c") and ("a", "b|c") encode to the same string and therefore
receive the same fingerprint from `create_article_hash`, for any digest
function whatsoever (no MD5 collision involved). -/
theorem hash_key_conflation (md5 : String → String) :
    create_article_hash md5 "a|b" "c" = create_article_hash md5 "a" "b|c" ∧
    articleKey "a|b" "c" = articleKey "a" "b|c" ∧
    (("a|b", "c") : String × String) ≠ ("a", "b|c") := by
  refine ⟨congrArg md5 (by decide), by decide, by decide⟩

/-- Title fixture for the concrete ingestion scenarios: long enough to
pass the 10-character minimum and topical for `is_payments_related`. -/
def demoTitle (i : Nat) : String := "Payment headline number " ++ toString i

/-- URL fixture. -/
def demoUrl (i : Nat) : String := "http://example.com/a" ++ toString i

/-- Five valid candidate links from one source. -/
def demoLinks : List Link :=
  [⟨demoUrl 1, demoTitle 1⟩, ⟨demoUrl 2, demoTitle 2⟩, ⟨demoUrl 3, demoTitle 3⟩,
   ⟨demoUrl 4, demoTitle 4⟩, ⟨demoUrl 5, demoTitle 5⟩]

/-- Content oracle fixture: every article page yields the same nonempty,
topical text. -/
def demoContent : String → String := fun _ => "Cross-border payment flows grew."

/-- The article the pipeline builds from the i-th demo link (with the
digest function instantiated to the identity on the encoded key). -/
def demoArticle (i : Nat) : NewsArticle :=
  { title := demoTitle i, url := demoUrl i,
    content := "Cross-border payment flows grew.", source := "S",
    published_date := "2025-01-01", hash_id := articleKey (demoTitle i) (demoUrl i) }

/-- C7: the ingestion of one source never returns more than `max_articles`
items, and what it returns is exactly the prefix of the valid new
candidates in extraction order; in particular, with `max_items = 2` and
five valid new candidates it returns exactly the first two. -/
theorem scrape_cap_enforcement :
    (∀ (md5 contentOf : String → String) (sn su d : String) (seen : List String)
        (max_articles : Nat) (links : List Link),
      (scrape_articles_from_source md5 contentOf sn su d links seen
          max_articles).length ≤ max_articles ∧
      scrape_articles_from_source md5 contentOf sn su d links seen max_articles
        = (links.filterMap (processLink md5 contentOf sn su d seen)).take
            max_articles) ∧
    scrape_articles_from_source id demoContent "S" "http://example.com" "2025-01-01"
      demoLinks [] 2 = [demoArticle 1, demoArticle 2] ∧
    (demoLinks.filterMap
      (processLink id demoContent "S" "http://example.com" "2025-01-01" [])).length = 5 := by
  refine ⟨?_, by decide, by decide⟩
  intro md5 contentOf sn su d seen max_articles links
  have hchar := scrapeLoop_eq_take md5 contentOf sn su d seen max_articles links 0
  rw [Nat.sub_zero] at hchar
  constructor
  · show (scrapeLoop md5 contentOf sn su d seen max_articles links 0).length ≤ _
    rw [hchar]
    exact List.length_take_le _ _
  · exact hchar

/-- If every fingerprint of `seen` is in `seen2` and the article this link
would produce against `seen` (if any) has its fingerprint in `seen2`, then
processing the link against `seen2` yields nothing: every check before the
duplicate test is deterministic in the link, and the duplicate test now
hits. -/
theorem processLink_seen2_none {md5 contentOf : String → String}
    {sn su d : String} {seen seen2 : List String} (lk : Link)
    (hsub : ∀ x ∈ seen, x ∈ seen2)
    (hcov : ∀ a, processLink md5 contentOf sn su d seen lk = some a →
      a.hash_id ∈ seen2) :
    processLink md5 contentOf sn su d seen2 lk = none := by
  unfold processLink at hcov ⊢
  by_cases h1 : lk.href = "" ∨ lk.text = "" ∨ lk.text.length < 10
  · rw [if_pos h1]
  · rw [if_neg h1]
    simp only [if_neg h1] at hcov
    cases hn : normalizeHref su lk.href with
    | none => rfl
    | some href2 =>
      simp only [hn] at hcov ⊢
      by_cases h2 : skip_patterns.any (fun p => strContains href2 p) = true
      · rw [if_pos h2]
      · rw [if_neg h2]
        simp only [if_neg h2] at hcov
        by_cases h3 : create_article_hash md5 lk.text href2 ∈ seen2
        · rw [if_pos h3]
        · rw [if_neg h3]
          have h4 : create_article_hash md5 lk.text href2 ∉ seen :=
            fun hm => h3 (hsub _ hm)
          simp only [if_neg h4] at hcov
          by_cases h5 : contentOf href2 = ""
          · rw [if_pos h5]
          · rw [if_neg h5]
            simp only [if_neg h5] at hcov
            by_cases h6 : ¬ is_payments_related (lk.text ++ " " ++ contentOf href2) = true
            · rw [if_pos h6]
            · rw [if_neg h6]
              simp only [if_neg h6] at hcov
              exact absurd (hcov _ rfl) h3

/-- C5 (amended): when the first run's valid new candidates all fit under
the `max_articles` cap and the store read by the second run contains the
old seen-set together with the fingerprint of every article the first run
returned (in particular, the flushed state after every returned article
was successfully enriched and marked processed), a second run over the
same retrieved content yields zero new items: every candidate either is
skipped deterministically for the same reason as in the first run, or its
fingerprint is found in the pre-loaded seen-set. -/
theorem ingest_idempotent_when_uncapped_and_committed
    (md5 contentOf : String → String) (sn su d : String)
    (seen : List String) (max_articles : Nat) (links : List Link)
    (seen2 : List String)
    (hfit : (links.filterMap (processLink md5 contentOf sn su d seen)).length
      ≤ max_articles)
    (hsub : ∀ x ∈ seen, x ∈ seen2)
    (hsaved : ∀ a ∈ scrape_articles_from_source md5 contentOf sn su d links seen
        max_articles, a.hash_id ∈ seen2) :
    scrape_articles_from_source md5 contentOf sn su d links seen2 max_articles = [] := by
  have hchar2 : scrape_articles_from_source md5 contentOf sn su d links seen2
      max_articles
      = (links.filterMap (processLink md5 contentOf sn su d seen2)).take
          max_articles := by
    show scrapeLoop md5 contentOf sn su d seen2 max_articles links 0 = _
    rw [scrapeLoop_eq_take, Nat.sub_zero]
  have hchar1 : scrape_articles_from_source md5 contentOf sn su d links seen
      max_articles
      = links.filterMap (processLink md5 contentOf sn su d seen) := by
    show scrapeLoop md5 contentOf sn su d seen max_articles links 0 = _
    rw [scrapeLoop_eq_take, Nat.sub_zero, List.take_of_length_le hfit]
  rw [hchar1] at hsaved
  have hnil : links.filterMap (processLink md5 contentOf sn su d seen2) = [] := by
    rw [List.filterMap_eq_nil_iff]
    intro lk hlk
    apply processLink_seen2_none lk hsub
    intro a ha
    exact hsaved a (List.mem_filterMap.mpr ⟨lk, hlk, ha⟩)
  rw [hchar2, hnil]
  exact List.take_nil

set_option maxRecDepth 100000

/-- Counterexample to C5 as stated: with the default cap of 3
(`max_articles: int = 3`) and five valid new candidates, the first run
returns the first three; after all three are enriched and their
fingerprints flushed, a second run over the same retrieved content
returns candidates four and five — not zero items.  The digest parameter
is instantiated with the identity on the encoded key, which models the
collision-freeness of MD5 on these five distinct keys; the run uses only
that the digest is a deterministic function. -/
theorem ingest_not_idempotent_counterexample :
    scrape_articles_from_source id demoContent "S" "http://example.com" "2025-01-01"
      demoLinks [] 3 = [demoArticle 1, demoArticle 2, demoArticle 3] ∧
    scrape_articles_from_source id demoContent "S" "http://example.com" "2025-01-01"
      demoLinks
      (load_processed_articles
        (analysis_phase (fun _ => (some () : Option Unit)) "2025-01-01T09:00:00"
          (scrape_articles_from_source id demoContent "S" "http://example.com"
            "2025-01-01" demoLinks [] 3) none).1) 3
      = [demoArticle 4, demoArticle 5] := by
  exact ⟨by decide, by decide⟩

/-- Membership in the persisted seen-set after the analysis loop: a
fingerprint is present afterwards exactly when it was present before or
belongs to a listed article whose enrichment returned an analysis. -/
theorem analysis_phase_mem {α : Type} (enrich : NewsArticle → Option α)
    (ts : String) (hts : noQuote ts) :
    ∀ (articles : List NewsArticle) (file : Option String) (h : String),
      (∀ a ∈ articles, noQuote a.hash_id) →
      (h ∈ load_processed_articles (analysis_phase enrich ts articles file).1 ↔
        (h ∈ load_processed_articles file ∨
          ∃ a, a ∈ articles ∧ a.hash_id = h ∧ (enrich a).isSome = true)) := by
  intro articles
  induction articles with
  | nil =>
    intro file h _
    simp [analysis_phase]
  | cons a rest ih =>
    intro file h hhs
    have hhs2 : ∀ b ∈ rest, noQuote b.hash_id :=
      fun b hb => hhs b (List.mem_cons_of_mem _ hb)
    cases he : enrich a with
    | none =>
      simp only [analysis_phase, he]
      rw [ih file h hhs2]
      constructor
      · rintro (hm | ⟨b, hb, h1, h2⟩)
        · exact Or.inl hm
        · exact Or.inr ⟨b, List.mem_cons_of_mem _ hb, h1, h2⟩
      · rintro (hm | ⟨b, hb, h1, h2⟩)
        · exact Or.inl hm
        · rcases List.mem_cons.mp hb with rfl | hb2
          · rw [he] at h2
            simp at h2
          · exact Or.inr ⟨b, hb2, h1, h2⟩
    | some an =>
      simp only [analysis_phase, he]
      rw [ih (save_processed_article file ts a.hash_id) h hhs2]
      rw [load_save file ts a.hash_id hts (hhs a (List.mem_cons_self a rest)) h]
      constructor
      · rintro ((he2 | hm) | ⟨b, hb, h1, h2⟩)
        · exact Or.inr ⟨a, List.mem_cons_self a rest, he2.symm, by rw [he]; rfl⟩
        · exact Or.inl hm
        · exact Or.inr ⟨b, List.mem_cons_of_mem _ hb, h1, h2⟩
      · rintro (hm | ⟨b, hb, h1, h2⟩)
        · exact Or.inl (Or.inr hm)
        · rcases List.mem_cons.mp hb with rfl | hb2
          · exact Or.inl (Or.inl h1.symm)
          · exact Or.inr ⟨b, hb2, h1, h2⟩

/-- C1: in the analysis loop of `run_daily_analysis`,
`save_processed_article` runs for an article exactly when
`analyze_article_with_ai` returned an analysis for it; a fingerprint is in
the persisted seen-set after the loop iff it was there before or belongs
to a listed article whose enrichment succeeded — so an article whose
enrichment failed (and whose fingerprint was not already stored or shared
with a successful article) is absent and remains eligible for
reprocessing on a later run.  The scraping phase itself never writes the
state file. -/
theorem fingerprint_saved_only_after_enrichment {α : Type}
    (enrich : NewsArticle → Option α) (ts : String)
    (articles : List NewsArticle) (file : Option String) (h : String)
    (hts : verbatimStr ts) (hhs : ∀ a ∈ articles, verbatimStr a.hash_id) :
    h ∈ load_processed_articles (analysis_phase enrich ts articles file).1 ↔
      (h ∈ load_processed_articles file ∨
        ∃ a, a ∈ articles ∧ a.hash_id = h ∧ (enrich a).isSome = true) :=
  analysis_phase_mem enrich ts hts.toNoQuote articles file h
    (fun a ha => (hhs a ha).toNoQuote)

/-- Witness for C1: one enriched article's fingerprint lands in the
store, and a failed article's fingerprint does not. -/
theorem fingerprint_saved_only_after_enrichment_witness :
    (articleKey (demoTitle 1) (demoUrl 1) ∈ load_processed_articles
      (analysis_phase (fun _ => (some () : Option Unit)) "2025-01-01T09:00:00"
        [demoArticle 1] none).1) ∧
    ¬ (articleKey (demoTitle 2) (demoUrl 2) ∈ load_processed_articles
      (analysis_phase (fun _ => (none : Option Unit)) "2025-01-01T09:00:00"
        [demoArticle 2] none).1) := by
  constructor
  · exact (fingerprint_saved_only_after_enrichment _ _ [demoArticle 1] none _
      (by decide) (by decide)).mpr
      (Or.inr ⟨demoArticle 1, by decide, rfl, rfl⟩)
  · intro hmem
    rcases (fingerprint_saved_only_after_enrichment _ _ [demoArticle 2] none _
      (by decide) (by decide)).mp hmem with hm | ⟨b, _, _, h2⟩
    · exact absurd hm (by decide)
    · simp at h2

/-- Witness for the amended C5: with the cap raised to 5, the first run
returns all five valid candidates; after all five are enriched and
flushed, the second run over the same retrieved content yields zero
items. -/
theorem ingest_idempotent_when_uncapped_and_committed_witness :
    scrape_articles_from_source id demoContent "S" "http://example.com" "2025-01-01"
      demoLinks
      (load_processed_articles
        (analysis_phase (fun _ => (some () : Option Unit)) "2025-01-01T09:00:00"
          (scrape_articles_from_source id demoContent "S" "http://example.com"
            "2025-01-01" demoLinks [] 5) none).1) 5 = [] :=
  ingest_idempotent_when_uncapped_and_committed id demoContent "S" "http://example.com"
    "2025-01-01" [] 5 demoLinks
    (load_processed_articles
      (analysis_phase (fun _ => (some () : Option Unit)) "2025-01-01T09:00:00"
        (scrape_articles_from_source id demoContent "S" "http://example.com"
          "2025-01-01" demoLinks [] 5) none).1)
    (by decide) (by decide) (by decide)

/-- C2 (amended): `save_processed_article` writes the new serialization
directly to the state file opened in truncating write mode (`open(...,
'w')`), with no temporary file and no atomic rename; a write that fails
at the start leaves an empty file, so the prior contents are lost — a
later `load_processed_articles` returns the empty set through the
fail-soft path, not the prior state. -/
theorem flush_truncating_write_destroys_prior (file : Option String) (ts h : String)
    (hne : load_processed_articles file ≠ []) :
    save_processed_article_interrupted file ts h 0 = some "" ∧
    load_processed_articles (save_processed_article_interrupted file ts h 0) = [] ∧
    save_processed_article_interrupted file ts h 0 ≠ file := by
  refine ⟨rfl, ?_, ?_⟩
  · show load_processed_articles (some "") = []
    decide
  · intro hc
    rw [← hc] at hne
    exact hne (show load_processed_articles (some "") = [] by decide)

/-- Counterexample to C2 as stated: the state file holds a valid
document for the set containing the hash "aa11"; a save whose write
fails immediately after `open(..., 'w')` leaves an empty file — the
prior contents are not readable any more, and loading now yields the
empty set instead of the prior one. -/
theorem flush_not_atomic_counterexample :
    save_processed_article_interrupted (some (dumpState ["aa11"] "t0")) "t1" "bb22" 0
      = some "" ∧
    some "" ≠ some (dumpState ["aa11"] "t0") ∧
    load_processed_articles (some "") = [] ∧
    load_processed_articles (some (dumpState ["aa11"] "t0")) = ["aa11"] := by
  exact ⟨rfl, by decide, by decide, by decide⟩

/-- Witness for the amended C2, at the same concrete prior state. -/
theorem flush_truncating_write_destroys_prior_witness :
    save_processed_article_interrupted (some (dumpState ["aa11"] "t0")) "t1" "bb22" 0
      = some "" ∧
    load_processed_articles
      (save_processed_article_interrupted (some (dumpState ["aa11"] "t0")) "t1" "bb22" 0)
      = [] ∧
    save_processed_article_interrupted (some (dumpState ["aa11"] "t0")) "t1" "bb22" 0
      ≠ some (dumpState ["aa11"] "t0") :=
  flush_truncating_write_destroys_prior (some (dumpState ["aa11"] "t0")) "t1" "bb22"
    (by decide)

/-- C3: `load_processed_articles` is total on every storage state (it
never raises: the Python wraps the body in `try/except` and the
fallback always yields the empty set because `_daily_run_marker` is never
set); a missing state file yields the empty set, and so does any present
file whose content fails to parse (truncated, unparseable or corrupt). -/
theorem load_fails_soft (file : Option String) :
    (file = none → load_processed_articles file = []) ∧
    (∀ c, file = some c → parseState c = none → load_processed_articles file = []) ∧
    get_processed_articles_fallback false = [] := by
  refine ⟨?_, ?_, rfl⟩
  · intro hf
    rw [hf]
    rfl
  · intro c hf hp
    rw [hf, load_some c, hp]
    rfl

/-- Witness for C3: the missing file, a non-JSON file, and a dump
truncated after seven characters all load as the empty set. -/
theorem load_fails_soft_witness :
    load_processed_articles none = [] ∧
    load_processed_articles (some "garbage") = [] ∧
    load_processed_articles (some (String.mk ((dumpChars ["aa11"] "t0").take 7))) = [] := by
  refine ⟨(load_fails_soft none).1 rfl, ?_, ?_⟩
  · exact (load_fails_soft (some "garbage")).2.1 "garbage" rfl (by decide)
  · exact (load_fails_soft (some (String.mk ((dumpChars ["aa11"] "t0").take 7)))).2.1
      _ rfl (by decide)

/-- C6: the persistence round-trip — serializing any enumeration of a
finite set of verbatim-serializable fingerprint strings with the flush
format of `save_processed_article` and reading it back with
`load_processed_articles` yields exactly the same membership, whatever
order the fingerprints were serialized in. -/
theorem persistence_round_trip (hashes : List String) (ts : String)
    (hq : ∀ x ∈ hashes, verbatimStr x) (ht : verbatimStr ts) :
    ∀ x, x ∈ load_processed_articles (some (dumpState hashes ts)) ↔ x ∈ hashes := by
  intro x
  rw [load_some, parseState_dump hashes ts (fun y hy => (hq y hy).toNoQuote) ht.toNoQuote]
  show x ∈ hashes.dedup ↔ x ∈ hashes
  exact List.mem_dedup

/-- Witness for C6 on two hex-digest-like fingerprints. -/
theorem persistence_round_trip_witness :
    "0a1b2c" ∈ load_processed_articles
      (some (dumpState ["0a1b2c", "3d4e5f"] "2025-01-01T09:00:00")) :=
  (persistence_round_trip ["0a1b2c", "3d4e5f"] "2025-01-01T09:00:00"
    (by decide) (by decide) "0a1b2c").mpr (by decide)

/-- C9: the persisted seen-set is monotone under
`save_processed_article` — every fingerprint readable from the state
file before a save is still readable after it (the save re-loads the
set, adds one hash, and rewrites the full set; nothing is evicted). -/
theorem seen_set_monotone (file : Option String) (ts hnew h : String)
    (hts : verbatimStr ts) (hh : verbatimStr hnew)
    (hmem : h ∈ load_processed_articles file) :
    h ∈ load_processed_articles (save_processed_article file ts hnew) :=
  (load_save file ts hnew hts.toNoQuote hh.toNoQuote h).mpr (Or.inr hmem)

/-- Witness for C9 at a concrete prior state. -/
theorem seen_set_monotone_witness :
    "aa11" ∈ load_processed_articles
      (save_processed_article (some (dumpState ["aa11"] "t0")) "t1" "bb22") :=
  seen_set_monotone (some (dumpState ["aa11"] "t0")) "t1" "bb22" "aa11"
    (by decide) (by decide) (by decide)

/-!
Configuration and network activity (`SokinNewsAnalyzer.__init__`,
`run_daily_analysis`, `hello_world_teams.send_hello_world_message`).
-/

/-- An outbound network action: an HTTP GET of a page, or an HTTP POST to
a webhook / API endpoint (`none` = the configured URL was absent, so
`requests.post(None, ...)` fails locally before reaching the network). -/
inductive NetEvent where
  | get : String → NetEvent
  | post : Option String → NetEvent
deriving DecidableEq

/-- The configuration fields `SokinNewsAnalyzer.__init__` reads.  The
constructor performs no validation whatsoever: every `os.getenv` result is
stored as-is (possibly `None`), and there is no code path that raises or
exits on missing values. -/
structure AnalyzerConfig where
  claude_api_key : Option String
  power_automate_url : Option String
  detailed_webhook_url : Option String
  claude_model : String
  target_sources : List (String × SourceConfig)
deriving DecidableEq

/-- Model of `SokinNewsAnalyzer.__init__` over an environment
(`os.getenv`).  Total: it succeeds for every environment, including the
empty one. -/
def analyzer_init (env : String → Option String) : AnalyzerConfig :=
  { claude_api_key := env "CLAUDE_API_KEY"
    power_automate_url := env "TEAMS_WEBHOOK_URL"
    detailed_webhook_url := env "TEAMS_DETAILED_WEBHOOK_URL"
    claude_model := (env "CLAUDE_MODEL").getD "claude-3-5-sonnet-20241022"
    target_sources :=
      [("PYMNTS", ⟨"https://www.pymnts.com/", "daily"⟩),
       ("Finextra", ⟨"https://www.finextra.com/", "daily"⟩),
       ("Payments Journal", ⟨"https://www.paymentsjournal.com/", "daily"⟩),
       ("Fintech Brain Food", ⟨"https://www.fintechbrainfood.com/", "weekly"⟩),
       ("Fintech Magazine", ⟨"https://fintechmagazine.com/articles", "daily"⟩)] }

/-- The network-activity trace of `run_daily_analysis`, in call order:
one GET of each due source's page (the `requests.get(source_url, ...)`
at the top of `scrape_articles_from_source`; per-article content fetches
are further network activity, omitted because no theorem needs them),
then one POST to the Anthropic API per scraped article
(`analyze_article_with_ai`), then the Teams webhook POST(s) — the main
webhook always (with the no-news message when nothing was analyzed), the
detailed webhook only when configured and something was analyzed.
`enrichOk` tells which AI calls return a usable analysis; `linksOf` gives
the candidate links extracted from each source's page.  Nothing in this
function fails on missing configuration: the config fields are only ever
used as data at the POST sites. -/
def run_daily_analysis_events (cfg : AnalyzerConfig) (weekday : Nat)
    (md5 contentOf : String → String) (linksOf : String → List Link)
    (enrichOk : NewsArticle → Bool) (date : String) (file : Option String) :
    List NetEvent :=
  (cfg.target_sources.filter
      (fun p => should_check_source_today p.1 p.2 weekday)).map
    (fun p => NetEvent.get p.2.url)
  ++ ((cfg.target_sources.filter
        (fun p => should_check_source_today p.1 p.2 weekday)).bind
      (fun p => scrape_articles_from_source md5 contentOf p.1 p.2.url date
        (linksOf p.1) (load_processed_articles file))).map
    (fun _ => NetEvent.post (some "https://api.anthropic.com/v1/messages"))
  ++ (if ((cfg.target_sources.filter
            (fun p => should_check_source_today p.1 p.2 weekday)).bind
          (fun p => scrape_articles_from_source md5 contentOf p.1 p.2.url date
            (linksOf p.1) (load_processed_articles file))).filter enrichOk ≠ []
      then NetEvent.post cfg.power_automate_url ::
        (match cfg.detailed_webhook_url with
         | some u => [NetEvent.post (some u)]
         | none => [])
      else [NetEvent.post cfg.power_automate_url])

/-- Model of `hello_world_teams.send_hello_world_message`: when
`TEAMS_WEBHOOK_URL` is unset it prints an explicit error and returns
`False` before any network call; otherwise it POSTs the card and returns
whether the status was 200/202 (injected as `postOk`). -/
def send_hello_world_message (postOk : Bool) (webhook_url : Option String) :
    Bool × List NetEvent :=
  match webhook_url with
  | none => (false, [])
  | some u => (postOk, [NetEvent.post (some u)])

/-- Counterexample to C8 as stated: with every configuration variable
missing, `SokinNewsAnalyzer.__init__` succeeds (storing `None`s) and
`run_daily_analysis` starts with network scraping of the four due daily
sources — network activity happens first, and no configuration error is
ever raised (the trace has no failure event at all; the missing webhook
only surfaces at the final POST, which the code catches and logs).
Weekday 1 (Tuesday), no candidate links extracted. -/
theorem config_missing_no_early_failure :
    (analyzer_init (fun _ => none)).claude_api_key = none ∧
    (analyzer_init (fun _ => none)).power_automate_url = none ∧
    run_daily_analysis_events (analyzer_init (fun _ => none)) 1 id (fun _ => "")
        (fun _ => []) (fun _ => true) "2025-01-01" none
      = [NetEvent.get "https://www.pymnts.com/",
         NetEvent.get "https://www.finextra.com/",
         NetEvent.get "https://www.paymentsjournal.com/",
         NetEvent.get "https://fintechmagazine.com/articles",
         NetEvent.post none] := by
  exact ⟨rfl, rfl, by decide⟩

/-- C8 (amended): the hello-world test script fails fast — missing
`TEAMS_WEBHOOK_URL` yields an explicit error return with no network
activity, and a configured URL yields exactly one webhook POST; the main
analyzer, by contrast, performs no startup validation: with every
configuration variable missing, its run still begins with a network GET
of the first due source. -/
theorem config_failfast_hello_world_only (postOk : Bool) :
    send_hello_world_message postOk none = (false, []) ∧
    (∀ u, send_hello_world_message postOk (some u) = (postOk, [NetEvent.post (some u)])) ∧
    (run_daily_analysis_events (analyzer_init (fun _ => none)) 1 id (fun _ => "")
        (fun _ => []) (fun _ => true) "2025-01-01" none).head?
      = some (NetEvent.get "https://www.pymnts.com/") := by
  exact ⟨rfl, fun u => rfl, by decide⟩
